import Mathlib

/-!
Verification development for `sparklines/sparklines.py`: a shallow embedding
of the construction-time geometry pipeline (Sparkline, Sparkbar), the
composition operator (`SparkBase.__add__`, `MultiSparkline.__add__`,
`MultiSparkline.__init__`) and the display-surface adapter
(`_svg_to_img_data`), together with theorems about the spec's claims.

Modelling conventions:
* Python/numpy floats are modelled as rationals (`ℚ`); none of the verified
  properties depends on rounding.
* numpy elementwise division by zero does not raise: it produces a
  non-finite float (NaN for 0/0, ±inf otherwise).  Scaled values are
  therefore `Option ℚ`, with `none` standing for any non-finite result.
* Python scalar division by zero raises `ZeroDivisionError`; numpy min/max
  reduction of an empty array raises `ValueError`.  Fallible construction is
  `Except PyErr _`, with one `PyErr` constructor per raise site of the
  source.
* `dict.get(key, default)` evaluates `default` eagerly, so the observed
  min/max (and the default bar width) are computed even when the
  corresponding option is overridden; the embedding preserves that order.
-/

namespace Sparklines

/-- One constructor per Python exception outcome reachable in the source:
`valueErrorZeroSize` is numpy's `ValueError` for a zero-size reduction
(`data.min()` / `data.max()` on an empty array), `zeroDivisionError` is the
scalar division by zero computing the default bar width,
`valueErrorDimensions` is the `ValueError` raised by `SparkBase.__add__`
("Sparklines must have the same dimensions"), `typeErrorCannotAdd` is the
`TypeError` raised by `SparkBase.__add__` ("Cannot add to Sparkline") and
`typeErrorOnlyAdd` is the `TypeError` raised by `MultiSparkline.__add__`. -/
inductive PyErr where
  | valueErrorZeroSize : PyErr
  | zeroDivisionError : PyErr
  | valueErrorDimensions : PyErr
  | typeErrorCannotAdd : PyErr
  | typeErrorOnlyAdd : PyErr
deriving DecidableEq

/-- `np.array(data).min()`: raises on an empty array, otherwise folds
`min` over the elements. -/
def npMin : List ℚ → Except PyErr ℚ
  | [] => .error .valueErrorZeroSize
  | x :: xs => .ok (xs.foldl min x)

/-- `np.array(data).max()`: raises on an empty array, otherwise folds
`max` over the elements. -/
def npMax : List ℚ → Except PyErr ℚ
  | [] => .error .valueErrorZeroSize
  | x :: xs => .ok (xs.foldl max x)

/-- numpy elementwise division: a zero divisor yields a non-finite float
(NaN or ±inf), modelled as `none`; otherwise the exact quotient. -/
def npDiv (a b : ℚ) : Option ℚ := if b = 0 then none else some (a / b)

/-- Python scalar division by an integer count: raises `ZeroDivisionError`
on a zero divisor. -/
def pyDiv (a : ℚ) (n : ℕ) : Except PyErr ℚ :=
  if n = 0 then .error .zeroDivisionError else .ok (a / (n : ℚ))

/-- `np.linspace(start, stop, num=n)`: `n` evenly spaced samples with both
endpoints included (a single sample is `start`; zero samples is empty). -/
def linspace (a b : ℚ) (n : ℕ) : List ℚ :=
  if n = 0 then []
  else if n = 1 then [a]
  else (List.range n).map (fun (i : ℕ) => a + (b - a) * (i : ℚ) / ((n : ℚ) - 1))

/-- The options of `Sparkline.__init__` that affect geometry (colors and the
start/end display flags only affect template text, not the computed
context geometry, and are omitted).  `ymin?`/`ymax?` are the optional
explicit scale overrides (`ctx.get('ymin', ...)`). -/
structure LineCfg where
  width : ℚ
  height : ℚ
  width_offset : ℚ
  height_offset : ℚ
  show_min : Bool
  show_max : Bool
  ymin? : Option ℚ
  ymax? : Option ℚ

/-- `Sparkline.DEFAULTS`: width 150, height 20, both offsets 2.6, the
min/max markers off, no explicit scale override. -/
def defaultLineCfg : LineCfg :=
  ⟨150, 20, 13 / 5, 13 / 5, false, false, none, none⟩

/-- The default configuration with both extrema marker flags enabled
(`show_min=True, show_max=True`). -/
def showBothCfg : LineCfg :=
  ⟨150, 20, 13 / 5, 13 / 5, true, true, none, none⟩

/-- The geometric part of the context `Sparkline.__init__` stores:
the polyline points and the min/max marker points (each an x-coordinate
paired with a possibly non-finite y-coordinate). -/
structure LineState where
  points : List (ℚ × Option ℚ)
  mins : List (ℚ × Option ℚ)
  maxs : List (ℚ × Option ℚ)

/-- `Sparkline.__init__`: observed min/max are computed first (eagerly, even
when `ymin`/`ymax` are overridden — `ctx.get` evaluates its default), the
series is normalized by `(v - ymin) / (ymax - ymin)`, y-coordinates are
`height_offset + range * (1 - scaled)` with `range = height -
2*height_offset`, x-coordinates are `linspace(width_offset, width -
width_offset, n)`, and the min/max marker lists select by exact equality
(`data == ymin` / `data == ymax`) when the corresponding flag is set. -/
def sparklineInit (data : List ℚ) (cfg : LineCfg) : Except PyErr LineState :=
  match npMin data, npMax data with
  | .ok obsMin, .ok obsMax =>
    let ymin := cfg.ymin?.getD obsMin
    let ymax := cfg.ymax?.getD obsMax
    let scaled := data.map (fun v => npDiv (v - ymin) (ymax - ymin))
    let rng := cfg.height - 2 * cfg.height_offset
    let ys := scaled.map (Option.map (fun s => cfg.height_offset + rng * (1 - s)))
    let xs := linspace cfg.width_offset (cfg.width - cfg.width_offset) data.length
    let points := xs.zip ys
    let pairs := points.zip data
    let mins :=
      if cfg.show_min then
        pairs.filterMap (fun pd => if pd.2 = ymin then some pd.1 else none)
      else []
    let maxs :=
      if cfg.show_max then
        pairs.filterMap (fun pd => if pd.2 = ymax then some pd.1 else none)
      else []
    .ok ⟨points, mins, maxs⟩
  | .error e, _ => .error e
  | .ok _, .error e => .error e

/-- The options of `Sparkbar.__init__` that affect geometry.  `bar_width?`
is the optional explicit bar width override. -/
structure BarCfg where
  width : ℚ
  height : ℚ
  bar_spacing : ℚ
  bar_width? : Option ℚ
  ymin? : Option ℚ
  ymax? : Option ℚ

/-- `Sparkbar.DEFAULTS`: width 150, height 20, `bar_spacing` 0. -/
def defaultBarCfg : BarCfg := ⟨150, 20, 0, none, none, none⟩

/-- The bar configuration of the spec's anchoring example: height 30 with
the explicit scale `ymin=2, ymax=6`. -/
def bar30Cfg : BarCfg := ⟨150, 30, 0, none, some 2, some 6⟩

/-- `if bar_spacing == 0.0: bar_spacing = -0.3` — a zero spacing option is
replaced by -0.3 before any use. -/
def effectiveSpacing (s : ℚ) : ℚ := if s = 0 then -(3 / 10) else s

/-- One `<rect>` of the bar chart: x-position, top y-coordinate, width and
height (y and height may be non-finite when `ymax == ymin`). -/
structure Bar where
  x : ℚ
  y : Option ℚ
  w : ℚ
  h : Option ℚ

/-- `Sparkbar.__init__`: the default bar width `(width - (size-1) *
bar_spacing) / size` is evaluated eagerly (Python `ctx.get` — so a zero
`size` raises `ZeroDivisionError` even when `bar_width` is overridden, and
before the min/max reductions run), the series is scaled by `height * (v -
ymin) / (ymax - ymin)`, each bar's top is `height - scaled` with height
`scaled`, and x-positions are `(bar_width + bar_spacing) * i`. -/
def sparkbarInit (data : List ℚ) (cfg : BarCfg) : Except PyErr (List Bar) :=
  let spacing := effectiveSpacing cfg.bar_spacing
  let n := data.length
  match pyDiv (cfg.width - ((n : ℚ) - 1) * spacing) n with
  | .error e => .error e
  | .ok defWidth =>
    match npMin data, npMax data with
    | .ok obsMin, .ok obsMax =>
      let barWidth := cfg.bar_width?.getD defWidth
      let ymin := cfg.ymin?.getD obsMin
      let ymax := cfg.ymax?.getD obsMax
      let scaled := data.map (fun v => npDiv (cfg.height * (v - ymin)) (ymax - ymin))
      let ys := scaled.map (Option.map (fun s => cfg.height - s))
      let xs := (List.range n).map (fun (i : ℕ) => (barWidth + spacing) * (i : ℚ))
      .ok (List.zipWith (fun xy h => Bar.mk xy.1 xy.2 barWidth h) (xs.zip ys) scaled)
    | .error e, _ => .error e
    | .ok _, .error e => .error e

/-- A constructed `SparkBase` leaf glyph (a `Sparkline` or `Sparkbar`), as
the composition operator sees it: its canvas dimensions, plus a tag so that
distinct glyphs of equal dimensions stay distinguishable in child lists. -/
structure Leaf where
  width : ℚ
  height : ℚ
  tag : ℕ

/-- A constructed `MultiSparkline`: the ordered child list plus the stored
canvas dimensions. -/
structure Multi where
  values : List Leaf
  width : ℚ
  height : ℚ

/-- `MultiSparkline.__init__`: stores the child list and takes its
dimensions from the first child, or 0 when the list is empty or absent. -/
def multiInit (values : List Leaf) : Multi :=
  ⟨values, ((values.head?).map Leaf.width).getD 0,
    ((values.head?).map Leaf.height).getD 0⟩

/-- The possible right operands of the `+` operator: a leaf glyph, a
`MultiSparkline`, or any non-renderable Python value. -/
inductive Operand where
  | leaf : Leaf → Operand
  | multi : Multi → Operand
  | nonRenderable : Operand

/-- `SparkBase.__add__`: only `SparkBase` instances are accepted (a
`MultiSparkline` is not a `SparkBase`, so it is rejected exactly like a
non-renderable value); equal dimensions produce
`MultiSparkline([self, other])`, unequal dimensions raise `ValueError`. -/
def leafAdd (a : Leaf) (b : Operand) : Except PyErr Multi :=
  match b with
  | .leaf l =>
    if a.width = l.width ∧ a.height = l.height then .ok (multiInit [a, l])
    else .error .valueErrorDimensions
  | .multi _ => .error .typeErrorCannotAdd
  | .nonRenderable => .error .typeErrorCannotAdd

/-- `MultiSparkline.__add__`: a `MultiSparkline` operand of equal dimensions
is concatenated child-list to child-list; a `SparkBase` operand of equal
dimensions is appended; every other case (including a dimension mismatch,
which falls through both `if` bodies) raises the one `TypeError`. -/
def multiAdd (m : Multi) (b : Operand) : Except PyErr Multi :=
  match b with
  | .multi o =>
    if m.width = o.width ∧ m.height = o.height then
      .ok (multiInit (m.values ++ o.values))
    else .error .typeErrorOnlyAdd
  | .leaf l =>
    if m.width = l.width ∧ m.height = l.height then
      .ok (multiInit (m.values ++ [l]))
    else .error .typeErrorOnlyAdd
  | .nonRenderable => .error .typeErrorOnlyAdd

/-- A renderable left operand of `+` (Python dispatches on the class of the
left operand; neither class defines `__radd__`, and both `__add__` methods
raise instead of returning `NotImplemented`, so no reflected fallback ever
runs). -/
inductive Renderable where
  | leaf : Leaf → Renderable
  | multi : Multi → Renderable

/-- The combine operation `a + b` of the source, dispatched on the left
operand's class. -/
def combine (a : Renderable) (b : Operand) : Except PyErr Multi :=
  match a with
  | .leaf l => leafAdd l b
  | .multi m => multiAdd m b

/-- `str.replace('"', "'")` on the rendered document: every double quote
becomes a single quote, all other characters are untouched. -/
def replaceQuote : List Char → List Char
  | [] => []
  | c :: cs => (if c = '"' then '\'' else c) :: replaceQuote cs

/-- The fixed data-URI scheme header of `_svg_to_img_data`. -/
def dataUriHead : List Char := "data:image/svg+xml;utf-8,".data

/-- `_svg_to_img_data(svg)`: the fixed header followed by the rendered
document with its double quotes replaced by single quotes. -/
def svgToImgData (svg : List Char) : List Char := dataUriHead ++ replaceQuote svg

/-- A possibly non-finite y-coordinate lies in the closed band
`[lo, hi]` (a non-finite value never does). -/
def inBand (lo hi : ℚ) : Option ℚ → Prop
  | none => False
  | some q => lo ≤ q ∧ q ≤ hi

/-- Folding `min` over a list never exceeds the initial accumulator. -/
theorem foldl_min_le_init (xs : List ℚ) (a : ℚ) : xs.foldl min a ≤ a := by
  induction xs generalizing a with
  | nil => simp
  | cons x xs ih => exact le_trans (ih (min a x)) (min_le_left a x)

/-- Folding `min` over a list never exceeds any list element. -/
theorem foldl_min_le_mem {y : ℚ} {xs : List ℚ} (a : ℚ) (hy : y ∈ xs) :
    xs.foldl min a ≤ y := by
  induction xs generalizing a with
  | nil => cases hy
  | cons x xs ih =>
    rcases List.mem_cons.mp hy with h | h
    · subst h
      exact le_trans (foldl_min_le_init xs (min a y)) (min_le_right a y)
    · exact ih (min a x) h

/-- Folding `max` over a list is at least the initial accumulator. -/
theorem init_le_foldl_max (xs : List ℚ) (a : ℚ) : a ≤ xs.foldl max a := by
  induction xs generalizing a with
  | nil => simp
  | cons x xs ih => exact le_trans (le_max_left a x) (ih (max a x))

/-- Folding `max` over a list is at least any list element. -/
theorem mem_le_foldl_max {y : ℚ} {xs : List ℚ} (a : ℚ) (hy : y ∈ xs) :
    y ≤ xs.foldl max a := by
  induction xs generalizing a with
  | nil => cases hy
  | cons x xs ih =>
    rcases List.mem_cons.mp hy with h | h
    · subst h
      exact le_trans (le_max_right a y) (init_le_foldl_max xs (max a y))
    · exact ih (max a x) h

/-- A successful numpy min reduction bounds every element from below. -/
theorem npMin_le {data : List ℚ} {m v : ℚ} (hm : npMin data = .ok m)
    (hv : v ∈ data) : m ≤ v := by
  cases data with
  | nil => cases hm
  | cons x xs =>
    simp only [npMin, Except.ok.injEq] at hm
    subst hm
    rcases List.mem_cons.mp hv with h | h
    · subst h; exact foldl_min_le_init xs v
    · exact foldl_min_le_mem x h

/-- A successful numpy max reduction bounds every element from above. -/
theorem le_npMax {data : List ℚ} {M v : ℚ} (hM : npMax data = .ok M)
    (hv : v ∈ data) : v ≤ M := by
  cases data with
  | nil => cases hM
  | cons x xs =>
    simp only [npMax, Except.ok.injEq] at hM
    subst hM
    rcases List.mem_cons.mp hv with h | h
    · subst h; exact init_le_foldl_max xs v
    · exact mem_le_foldl_max x h

/-- Claim C1 (code evaluation at the failing input): for the constant
series `[3, 3]` under the default configuration, `Sparkline.__init__`
succeeds but normalizes by `0 / 0`, so both emitted points carry a
non-finite (NaN) y-coordinate instead of the vertical midline
`height_offset + (height - 2*height_offset)/2 = 10` that the claim
requires. -/
theorem constant_series_points_nan :
    sparklineInit [3, 3] defaultLineCfg =
      .ok ⟨[(13 / 5, none), (737 / 5, none)], [], []⟩ ∧
    defaultLineCfg.height_offset +
      (defaultLineCfg.height - 2 * defaultLineCfg.height_offset) / 2 = 10 := by
  constructor
  · norm_num [sparklineInit, npMin, npMax, npDiv, linspace, defaultLineCfg,
      List.range_succ]
  · norm_num [defaultLineCfg]

/-- Claim C7: constructing either variant from a series with zero samples
fails at construction time for every configuration (even when `ymin`,
`ymax` or `bar_width` are explicitly overridden, because Python evaluates
the `ctx.get` defaults eagerly): `Sparkline.__init__` raises numpy's
zero-size-reduction `ValueError`, `Sparkbar.__init__` raises
`ZeroDivisionError` computing the default bar width. -/
theorem empty_series_fails_at_construction (cfgL : LineCfg) (cfgB : BarCfg) :
    sparklineInit [] cfgL = .error .valueErrorZeroSize ∧
    sparkbarInit [] cfgB = .error .zeroDivisionError := by
  constructor
  · rfl
  · rfl

/-- Single-character replacement commutes with a `map` description. -/
theorem replaceQuote_eq_map (s : List Char) :
    replaceQuote s = s.map (fun c => if c = '"' then '\'' else c) := by
  induction s with
  | nil => rfl
  | cons c cs ih => simp [replaceQuote, ih]

/-- Claim C8: for every rendered document `s`, the display-surface adapter
output is exactly the fixed header `data:image/svg+xml;utf-8,` followed by
`s` with each double quote replaced by a single quote and every other
character untouched; in particular the output is one character per input
character after the 25-character header, and contains no double quote. -/
theorem svg_img_data_quote_escape (s : List Char) :
    svgToImgData s = dataUriHead ++ s.map (fun c => if c = '"' then '\'' else c) ∧
    (svgToImgData s).length = 25 + s.length ∧
    '"' ∉ svgToImgData s := by
  refine ⟨by rw [svgToImgData, replaceQuote_eq_map], ?_, ?_⟩
  · simp only [svgToImgData, replaceQuote_eq_map, dataUriHead]
    simp [List.length_append]
    omega
  · intro hmem
    rw [svgToImgData, replaceQuote_eq_map] at hmem
    rcases List.mem_append.mp hmem with h | h
    · revert h; decide
    · obtain ⟨a, _, ha⟩ := List.mem_map.mp h
      by_cases hq : a = '"'
      · rw [if_pos hq] at ha; cases ha
      · rw [if_neg hq] at ha; exact hq ha

/-- Claim C9: a `bar_spacing` option equal to 0 — default or explicitly
passed — is replaced by -0.3, so `Sparkbar.__init__` behaves exactly as if
-0.3 had been configured, and no configuration value can make the
effective spacing used for bar widths and x-positions equal 0. -/
theorem bar_spacing_zero_becomes_neg_point_three :
    (∀ (data : List ℚ) (cfg : BarCfg), cfg.bar_spacing = 0 →
      sparkbarInit data cfg =
        sparkbarInit data
          ⟨cfg.width, cfg.height, -(3 / 10), cfg.bar_width?, cfg.ymin?, cfg.ymax?⟩) ∧
    (∀ s : ℚ, effectiveSpacing s ≠ 0) := by
  constructor
  · intro data cfg h
    have hs : effectiveSpacing cfg.bar_spacing = effectiveSpacing (-(3 / 10)) := by
      rw [h]
      norm_num [effectiveSpacing]
    simp only [sparkbarInit, hs]
  · intro s
    by_cases h : s = 0
    · subst h
      norm_num [effectiveSpacing]
    · simp only [effectiveSpacing, if_neg h]
      exact h

/-- Witness for claim C9 at the default configuration on the series
`[1]`. -/
theorem bar_spacing_zero_witness :
    sparkbarInit [1] defaultBarCfg =
      sparkbarInit [1] ⟨150, 20, -(3 / 10), none, none, none⟩ :=
  bar_spacing_zero_becomes_neg_point_three.1 [1] defaultBarCfg rfl

/-- Claim C10: a `MultiSparkline` built from an empty (or absent) child
list stores canvas width 0 and height 0, and combining it with any leaf
glyph or composite of nonzero dimensions raises the `TypeError` of
`MultiSparkline.__add__` (the dimension comparison `0 = width` fails and
the method falls through to its raise) instead of adopting the operand's
dimensions. -/
theorem empty_multisparkline_zero_dims :
    (multiInit []).width = 0 ∧ (multiInit []).height = 0 ∧
    (∀ l : Leaf, l.width ≠ 0 ∨ l.height ≠ 0 →
      multiAdd (multiInit []) (.leaf l) = .error .typeErrorOnlyAdd) ∧
    (∀ o : Multi, o.width ≠ 0 ∨ o.height ≠ 0 →
      multiAdd (multiInit []) (.multi o) = .error .typeErrorOnlyAdd) := by
  refine ⟨rfl, rfl, ?_, ?_⟩
  · intro l hl
    have hn : ¬((multiInit []).width = l.width ∧ (multiInit []).height = l.height) := by
      rcases hl with h | h
      · exact fun hc => h (by simpa [multiInit] using hc.1.symm)
      · exact fun hc => h (by simpa [multiInit] using hc.2.symm)
    simp only [multiAdd, if_neg hn]
  · intro o ho
    have hn : ¬((multiInit []).width = o.width ∧ (multiInit []).height = o.height) := by
      rcases ho with h | h
      · exact fun hc => h (by simpa [multiInit] using hc.1.symm)
      · exact fun hc => h (by simpa [multiInit] using hc.2.symm)
    simp only [multiAdd, if_neg hn]

/-- Witness for claim C10: the empty composite rejects a 150-by-20 leaf. -/
theorem empty_multisparkline_zero_dims_witness :
    multiAdd (multiInit []) (.leaf ⟨150, 20, 0⟩) = .error .typeErrorOnlyAdd :=
  empty_multisparkline_zero_dims.2.2.1 ⟨150, 20, 0⟩ (Or.inl (by norm_num))

/-- Claim C2 counterexample: for equal-dimension (150 by 20) leaves, the
inner combination `combine(b, c)` succeeds, but the right-nested
`combine(a, combine(b, c))` does not — `SparkBase.__add__` accepts only
`SparkBase` instances, a `MultiSparkline` is not one, and the method raises
its `TypeError` instead of flattening, so the claimed associativity fails
at this input. -/
theorem right_nested_combine_fails :
    combine (.leaf ⟨150, 20, 1⟩) (.leaf ⟨150, 20, 2⟩) =
      .ok (multiInit [⟨150, 20, 1⟩, ⟨150, 20, 2⟩]) ∧
    combine (.leaf ⟨150, 20, 0⟩)
        (.multi (multiInit [⟨150, 20, 1⟩, ⟨150, 20, 2⟩])) =
      .error .typeErrorCannotAdd := by
  constructor
  · norm_num [combine, leafAdd]
  · rfl

/-- Claim C2 as amended: for glyphs of equal canvas dimensions the
left-nested combination `combine(combine(a, b), c)` succeeds and yields
the flattened ordered child list `[a, b, c]`, but the right-nested
`combine(a, combine(b, c))` fails with the `TypeError` of
`SparkBase.__add__`, because a composite right operand is rejected like
any non-`SparkBase` value; so draw-order associativity holds only up to
the left operand being the composite. -/
theorem combine_left_nested_flattens (a b c : Leaf)
    (hw1 : a.width = b.width) (hh1 : a.height = b.height)
    (hw2 : a.width = c.width) (hh2 : a.height = c.height) :
    (combine (.leaf a) (.leaf b)).bind
        (fun m => combine (.multi m) (.leaf c)) = .ok (multiInit [a, b, c]) ∧
    ∀ m : Multi, combine (.leaf a) (.multi m) = .error .typeErrorCannotAdd := by
  constructor
  · have h1 : combine (.leaf a) (.leaf b) = .ok (multiInit [a, b]) := by
      simp [combine, leafAdd, hw1, hh1]
    rw [h1]
    show combine (.multi (multiInit [a, b])) (.leaf c) = .ok (multiInit [a, b, c])
    have hw : (multiInit [a, b]).width = c.width := by
      simpa [multiInit] using hw2
    have hh : (multiInit [a, b]).height = c.height := by
      simpa [multiInit] using hh2
    simp only [combine, multiAdd, if_pos (And.intro hw hh)]
    simp [multiInit]
  · intro m
    rfl

/-- Witness for the amended claim C2 at three concrete 150-by-20 leaves. -/
theorem combine_left_nested_flattens_witness :
    (combine (.leaf ⟨150, 20, 3⟩) (.leaf ⟨150, 20, 4⟩)).bind
        (fun m => combine (.multi m) (.leaf ⟨150, 20, 5⟩)) =
      .ok (multiInit [⟨150, 20, 3⟩, ⟨150, 20, 4⟩, ⟨150, 20, 5⟩]) ∧
    combine (.leaf ⟨150, 20, 3⟩) (.multi (multiInit [⟨150, 20, 4⟩])) =
      .error .typeErrorCannotAdd :=
  ⟨(combine_left_nested_flattens ⟨150, 20, 3⟩ ⟨150, 20, 4⟩ ⟨150, 20, 5⟩
      rfl rfl rfl rfl).1,
   (combine_left_nested_flattens ⟨150, 20, 3⟩ ⟨150, 20, 4⟩ ⟨150, 20, 5⟩
      rfl rfl rfl rfl).2 (multiInit [⟨150, 20, 4⟩])⟩

/-- Claim C3 counterexample: combining a 150-by-20 composite with a
150-by-25 leaf — two renderable glyphs of unequal canvas dimensions —
fails with the generic `TypeError` of `MultiSparkline.__add__` (the
dimension comparison fails and the method falls through to its single
raise), not with the dimension-mismatch `ValueError`, refuting the claim
that every unequal-dimension combination fails with `DimensionMismatch`. -/
theorem multi_mismatch_not_dimension_error :
    combine (.multi (multiInit [⟨150, 20, 0⟩])) (.leaf ⟨150, 25, 1⟩) =
      .error .typeErrorOnlyAdd ∧
    (Except.error PyErr.typeErrorOnlyAdd : Except PyErr Multi) ≠
      .error .valueErrorDimensions := by
  constructor
  · norm_num [combine, multiAdd, multiInit]
  · intro h
    rw [Except.error.injEq] at h
    cases h

/-- Claim C3 as amended: combining two leaf glyphs of unequal canvas
dimensions fails with the dimension-mismatch `ValueError` and with equal
dimensions succeeds; combining either kind of renderable with a
non-renderable value fails with a `TypeError`; but when the left operand
is a composite, an unequal-dimension combination fails with the generic
`TypeError` of `MultiSparkline.__add__` rather than the dimension error,
and a leaf with a composite right operand fails with `TypeError`
regardless of dimensions. -/
theorem combine_error_kinds :
    (∀ a b : Leaf, a.width ≠ b.width ∨ a.height ≠ b.height →
      combine (.leaf a) (.leaf b) = .error .valueErrorDimensions) ∧
    (∀ a b : Leaf, a.width = b.width → a.height = b.height →
      combine (.leaf a) (.leaf b) = .ok (multiInit [a, b])) ∧
    (∀ a : Leaf, combine (.leaf a) .nonRenderable = .error .typeErrorCannotAdd) ∧
    (∀ m : Multi, combine (.multi m) .nonRenderable = .error .typeErrorOnlyAdd) ∧
    (∀ (a : Leaf) (m : Multi),
      combine (.leaf a) (.multi m) = .error .typeErrorCannotAdd) ∧
    (∀ (m : Multi) (l : Leaf), m.width ≠ l.width ∨ m.height ≠ l.height →
      combine (.multi m) (.leaf l) = .error .typeErrorOnlyAdd) ∧
    (∀ m o : Multi, m.width ≠ o.width ∨ m.height ≠ o.height →
      combine (.multi m) (.multi o) = .error .typeErrorOnlyAdd) := by
  refine ⟨?_, ?_, fun a => rfl, fun m => rfl, fun a m => rfl, ?_, ?_⟩
  · intro a b hab
    have hn : ¬(a.width = b.width ∧ a.height = b.height) := by
      rcases hab with h | h
      · exact fun hc => h hc.1
      · exact fun hc => h hc.2
    simp only [combine, leafAdd, if_neg hn]
  · intro a b hw hh
    simp [combine, leafAdd, hw, hh]
  · intro m l hml
    have hn : ¬(m.width = l.width ∧ m.height = l.height) := by
      rcases hml with h | h
      · exact fun hc => h hc.1
      · exact fun hc => h hc.2
    simp only [combine, multiAdd, if_neg hn]
  · intro m o hmo
    have hn : ¬(m.width = o.width ∧ m.height = o.height) := by
      rcases hmo with h | h
      · exact fun hc => h hc.1
      · exact fun hc => h hc.2
    simp only [combine, multiAdd, if_neg hn]

/-- Witness for the amended claim C3: a 150-by-20 and a 150-by-25 leaf fail
with the dimension-mismatch `ValueError`, and two 150-by-20 leaves
succeed. -/
theorem combine_error_kinds_witness :
    combine (.leaf ⟨150, 20, 6⟩) (.leaf ⟨150, 25, 7⟩) =
      .error .valueErrorDimensions ∧
    combine (.leaf ⟨150, 20, 6⟩) (.leaf ⟨150, 20, 7⟩) =
      .ok (multiInit [⟨150, 20, 6⟩, ⟨150, 20, 7⟩]) :=
  ⟨combine_error_kinds.1 ⟨150, 20, 6⟩ ⟨150, 25, 7⟩ (Or.inr (by norm_num)),
   combine_error_kinds.2.1 ⟨150, 20, 6⟩ ⟨150, 20, 7⟩ rfl rfl⟩

/-- Claim C5: extrema markers are selected by exact equality with the
series minimum/maximum, so for the series `[1, 5, 3, 5, 2]` with both
flags enabled exactly two maximum markers are emitted (the two samples
equal to 5, at x = 38.8 and x = 111.2) and exactly one minimum marker
(the single 1, at x = 2.6); and in general a disabled flag makes the
corresponding marker list empty. -/
theorem extrema_markers_exact_equality :
    (sparklineInit [1, 5, 3, 5, 2] showBothCfg =
      .ok
        ⟨[(13 / 5, some (87 / 5)), (194 / 5, some (13 / 5)), (75, some 10),
            (556 / 5, some (13 / 5)), (737 / 5, some (137 / 10))],
          [(13 / 5, some (87 / 5))],
          [(194 / 5, some (13 / 5)), (556 / 5, some (13 / 5))]⟩) ∧
    (∀ (data : List ℚ) (cfg : LineCfg) (st : LineState),
      sparklineInit data cfg = .ok st →
      (cfg.show_min = false → st.mins = []) ∧
      (cfg.show_max = false → st.maxs = [])) := by
  constructor
  · norm_num [sparklineInit, npMin, npMax, npDiv, linspace, showBothCfg,
      List.range_succ, List.filterMap_cons, List.filterMap_nil]
  · intro data cfg st hinit
    cases hm : npMin data with
    | error e =>
      rw [sparklineInit, hm] at hinit
      cases hinit
    | ok m =>
      cases hM : npMax data with
      | error e =>
        rw [sparklineInit, hm, hM] at hinit
        cases hinit
      | ok M =>
        rw [sparklineInit, hm, hM] at hinit
        rw [Except.ok.injEq] at hinit
        subst hinit
        constructor
        · intro hflag
          simp [hflag]
        · intro hflag
          simp [hflag]

/-- Witness for claim C5's general disabled-flag part: with the default
configuration (both flags off) on `[1, 5, 3, 5, 2]`, both marker lists of
the constructed state are empty. -/
theorem extrema_markers_witness :
    (⟨[(13 / 5, some (87 / 5)), (194 / 5, some (13 / 5)), (75, some 10),
        (556 / 5, some (13 / 5)), (737 / 5, some (137 / 10))], [], []⟩ :
      LineState).mins = [] ∧
    (⟨[(13 / 5, some (87 / 5)), (194 / 5, some (13 / 5)), (75, some 10),
        (556 / 5, some (13 / 5)), (737 / 5, some (137 / 10))], [], []⟩ :
      LineState).maxs = [] := by
  have h :=
    extrema_markers_exact_equality.2 [1, 5, 3, 5, 2] defaultLineCfg
      ⟨[(13 / 5, some (87 / 5)), (194 / 5, some (13 / 5)), (75, some 10),
          (556 / 5, some (13 / 5)), (737 / 5, some (137 / 10))], [], []⟩
      (by norm_num [sparklineInit, npMin, npMax, npDiv, linspace,
        defaultLineCfg, List.range_succ])
  exact ⟨h.1 rfl, h.2 rfl⟩

/-- Elementwise structure of the constructed bar list: each bar's top
y-coordinate is the canvas height minus its (scaled) height. -/
theorem bar_y_from_h (xs : List ℚ) (sc : List (Option ℚ)) (bw H : ℚ) :
    ∀ b ∈ List.zipWith (fun xy h => Bar.mk xy.1 xy.2 bw h)
        (xs.zip (sc.map (Option.map (fun s => H - s)))) sc,
      b.y = Option.map (fun s => H - s) b.h := by
  induction xs generalizing sc with
  | nil =>
    intro b hb
    simp at hb
  | cons x xs ih =>
    cases sc with
    | nil =>
      intro b hb
      simp at hb
    | cons s sc =>
      intro b hb
      simp only [List.map_cons, List.zip_cons_cons, List.zipWith_cons_cons,
        List.mem_cons] at hb
      rcases hb with rfl | hb
      · rfl
      · exact ih sc b hb

/-- Claim C6: every constructed bar is anchored to the canvas bottom (its
top y-coordinate is the canvas height minus its height, so `y + h` equals
the canvas height); without a `bar_width` override each bar's width is
`(width - (n-1)*spacing) / n` and its x-position is
`(bar_width + spacing) * index`; and for the series `[2, 4, 6]` at height
30 with `ymin=2, ymax=6` the bar for value 2 has height 0, the bar for
value 6 has height 30, and every `y + h` is 30. -/
theorem sparkbar_geometry :
    (∀ (data : List ℚ) (cfg : BarCfg) (bars : List Bar),
      sparkbarInit data cfg = .ok bars →
      ∀ b ∈ bars, b.y = Option.map (fun s => cfg.height - s) b.h) ∧
    (∀ (data : List ℚ) (cfg : BarCfg) (bars : List Bar),
      cfg.bar_width? = none →
      sparkbarInit data cfg = .ok bars →
      ∀ (i : ℕ) (hi : i < bars.length),
        (bars.get ⟨i, hi⟩).w =
          (cfg.width - ((data.length : ℚ) - 1) * effectiveSpacing cfg.bar_spacing) /
            (data.length : ℚ) ∧
        (bars.get ⟨i, hi⟩).x =
          ((bars.get ⟨i, hi⟩).w + effectiveSpacing cfg.bar_spacing) * (i : ℚ)) ∧
    sparkbarInit [2, 4, 6] bar30Cfg =
      .ok [⟨0, some 30, 251 / 5, some 0⟩, ⟨499 / 10, some 15, 251 / 5, some 15⟩,
        ⟨499 / 5, some 0, 251 / 5, some 30⟩] := by
  refine ⟨?_, ?_, ?_⟩
  · intro data cfg bars hinit
    cases hp : pyDiv (cfg.width - ((data.length : ℚ) - 1) *
        effectiveSpacing cfg.bar_spacing) data.length with
    | error e =>
      simp only [sparkbarInit, hp] at hinit
      cases hinit
    | ok defWidth =>
      cases hm : npMin data with
      | error e =>
        simp only [sparkbarInit, hp, hm] at hinit
        cases hinit
      | ok m =>
        cases hM : npMax data with
        | error e =>
          simp only [sparkbarInit, hp, hm, hM] at hinit
          cases hinit
        | ok M =>
          simp only [sparkbarInit, hp, hm, hM, Except.ok.injEq] at hinit
          subst hinit
          exact bar_y_from_h _ _ _ _
  · intro data cfg bars hbw hinit
    cases hp : pyDiv (cfg.width - ((data.length : ℚ) - 1) *
        effectiveSpacing cfg.bar_spacing) data.length with
    | error e =>
      simp only [sparkbarInit, hp] at hinit
      cases hinit
    | ok defWidth =>
      cases hm : npMin data with
      | error e =>
        simp only [sparkbarInit, hp, hm] at hinit
        cases hinit
      | ok m =>
        cases hM : npMax data with
        | error e =>
          simp only [sparkbarInit, hp, hm, hM] at hinit
          cases hinit
        | ok M =>
          simp only [sparkbarInit, hp, hm, hM, hbw, Option.getD_none,
            Except.ok.injEq] at hinit
          subst hinit
          by_cases hn : data.length = 0
          · rw [pyDiv, if_pos hn] at hp
            cases hp
          · rw [pyDiv, if_neg hn, Except.ok.injEq] at hp
            intro i hi
            constructor
            · simp only [List.get_eq_getElem, List.getElem_zipWith, List.getElem_zip,
                List.getElem_map, List.getElem_range]
              exact hp.symm
            · simp only [List.get_eq_getElem, List.getElem_zipWith, List.getElem_zip,
                List.getElem_map, List.getElem_range]
  · norm_num [sparkbarInit, pyDiv, npMin, npMax, npDiv, effectiveSpacing,
      bar30Cfg, List.range_succ]

/-- Witness for claim C6's general anchoring part, at the middle bar of the
`[2, 4, 6]` example: its top y-coordinate is the canvas height 30 minus its
height 15. -/
theorem sparkbar_geometry_witness :
    (⟨499 / 10, some 15, 251 / 5, some 15⟩ : Bar).y =
      Option.map (fun s => bar30Cfg.height - s)
        (⟨499 / 10, some 15, 251 / 5, some 15⟩ : Bar).h := by
  have h :=
    sparkbar_geometry.1 [2, 4, 6] bar30Cfg
      [⟨0, some 30, 251 / 5, some 0⟩, ⟨499 / 10, some 15, 251 / 5, some 15⟩,
        ⟨499 / 5, some 0, 251 / 5, some 30⟩]
      sparkbar_geometry.2.2
  exact h ⟨499 / 10, some 15, 251 / 5, some 15⟩
    (List.mem_cons_of_mem _ (List.mem_cons_self _ _))

/-- Claim C4: for every non-constant series accepted by
`Sparkline.__init__` under its default normalization domain (no
`ymin`/`ymax` override) and margins satisfying the data model's invariant
(`2*height_offset ≤ height`), every emitted point
has a finite y-coordinate within the closed interval
`[height_offset, height - height_offset]`. -/
theorem nonconstant_ys_within_margins
    (data : List ℚ) (cfg : LineCfg) (st : LineState)
    (hymin : cfg.ymin? = none) (hymax : cfg.ymax? = none)
    (hht : 2 * cfg.height_offset ≤ cfg.height)
    (hnc : ∃ a ∈ data, ∃ b ∈ data, a ≠ b)
    (hinit : sparklineInit data cfg = .ok st) :
    ∀ p ∈ st.points,
      inBand cfg.height_offset (cfg.height - cfg.height_offset) p.2 := by
  obtain ⟨a, ha, b, hb, hab⟩ := hnc
  cases hm : npMin data with
  | error e =>
    rw [sparklineInit, hm] at hinit
    cases hinit
  | ok m =>
    cases hM : npMax data with
    | error e =>
      rw [sparklineInit, hm, hM] at hinit
      cases hinit
    | ok M =>
      rw [sparklineInit, hm, hM] at hinit
      rw [Except.ok.injEq] at hinit
      subst hinit
      have hmM : m < M := by
        rcases lt_or_gt_of_ne hab with h | h
        · exact lt_of_le_of_lt (npMin_le hm ha) (lt_of_lt_of_le h (le_npMax hM hb))
        · exact lt_of_le_of_lt (npMin_le hm hb) (lt_of_lt_of_le h (le_npMax hM ha))
      have hne : M - m ≠ 0 := sub_ne_zero.mpr (ne_of_gt hmM)
      intro p hp
      obtain ⟨x, y⟩ := p
      have hy := (List.of_mem_zip hp).2
      simp only [hymin, hymax, Option.getD_none] at hy
      obtain ⟨s, hsmem, hsy⟩ := List.mem_map.mp hy
      obtain ⟨v, hv, hvs⟩ := List.mem_map.mp hsmem
      subst hvs
      rw [npDiv, if_neg hne, Option.map_some'] at hsy
      subst hsy
      have hs0 : 0 ≤ (v - m) / (M - m) :=
        div_nonneg (sub_nonneg.mpr (npMin_le hm hv)) (le_of_lt (sub_pos.mpr hmM))
      have hs1 : (v - m) / (M - m) ≤ 1 :=
        (div_le_one (sub_pos.mpr hmM)).mpr (sub_le_sub_right (le_npMax hM hv) m)
      have hrng : 0 ≤ cfg.height - 2 * cfg.height_offset := by linarith
      have hprod0 :
          0 ≤ (cfg.height - 2 * cfg.height_offset) * (1 - (v - m) / (M - m)) :=
        mul_nonneg hrng (by linarith)
      have hprod1 :
          (cfg.height - 2 * cfg.height_offset) * (1 - (v - m) / (M - m)) ≤
            cfg.height - 2 * cfg.height_offset :=
        mul_le_of_le_one_right hrng (by linarith)
      simp only [inBand]
      constructor
      · linarith
      · linarith

/-- Witness for claim C4: the first point of the series `[1, 2]` under the
default configuration has its y-coordinate 17.4 inside
`[2.6, 20 - 2.6]`. -/
theorem nonconstant_ys_within_margins_witness :
    inBand defaultLineCfg.height_offset
      (defaultLineCfg.height - defaultLineCfg.height_offset)
      (some (87 / 5)) := by
  have h :=
    nonconstant_ys_within_margins [1, 2] defaultLineCfg
      ⟨[(13 / 5, some (87 / 5)), (737 / 5, some (13 / 5))], [], []⟩
      rfl rfl (by norm_num [defaultLineCfg])
      ⟨1, by norm_num, 2, by norm_num, by norm_num⟩
      (by norm_num [sparklineInit, npMin, npMax, npDiv, linspace,
        defaultLineCfg, List.range_succ])
  exact h (13 / 5, some (87 / 5)) (List.mem_cons_self _ _)

end Sparklines
